import Mathlib

set_option autoImplicit false
set_option linter.unusedVariables false

/-!
Shallow embedding of `src/app.py` (The Multimodal Storyteller, a Streamlit app).

Strings are modelled as `List Char`.  The three external generative services
(Gemini text generation, Stability image generation, ElevenLabs speech) are
nondeterministic collaborators; each call site takes the call's outcome as an
explicit oracle argument.  Everything that the Python code itself computes
(string cleaning, `json.loads`, dict access, session-state mutation order,
exception propagation) is translated from the source.
-/

/-- The ASCII fragment of the whitespace set stripped by Python `str.strip()`. -/
def isPySpace (c : Char) : Bool :=
  c == ' ' || c == '\t' || c == '\n' || c == '\r' || c == '\x0b' || c == '\x0c'

/-- Python `s.lstrip()` (ASCII whitespace fragment). -/
def lstrip (s : List Char) : List Char := s.dropWhile isPySpace

/-- Python `s.rstrip()` (ASCII whitespace fragment). -/
def rstrip (s : List Char) : List Char := (s.reverse.dropWhile isPySpace).reverse

/-- Python `s.strip()` (ASCII whitespace fragment). -/
def pyStrip (s : List Char) : List Char := rstrip (lstrip s)

/-- `leadsWith p s` holds when `p` is a prefix of `s` (Boolean, by direct recursion). -/
def leadsWith : List Char → List Char → Bool
  | [], _ => true
  | _ :: _, [] => false
  | a :: p, b :: s => a == b && leadsWith p s

/-- Fuelled worker for `removeAll`; fuel `≥ s.length` makes it total on `s`. -/
def removeAllGo : Nat → List Char → List Char → List Char
  | 0, _, s => s
  | _ + 1, _, [] => []
  | f + 1, p, c :: rest =>
    if leadsWith p (c :: rest) then removeAllGo f p (List.drop (p.length - 1) rest)
    else c :: removeAllGo f p rest

/-- Python `s.replace(p, "")` for a nonempty pattern `p`: removes the leftmost
non-overlapping occurrences of `p`, scanning left to right.  -/
def removeAll (p s : List Char) : List Char := removeAllGo s.length p s

/-- The opening code-fence marker removed by `generate_story_chapter` (app.py line 84). -/
def fjson : List Char := "```json".data

/-- The bare code-fence marker removed by `generate_story_chapter` (app.py line 84). -/
def g3 : List Char := "```".data

/-- app.py line 84:
`cleaned_json_string = response.text.strip().replace("```json", "").replace("```", "").strip()`. -/
def clean (raw : List Char) : List Char :=
  pyStrip (removeAll g3 (removeAll fjson (pyStrip raw)))

/-- JSON values as produced by Python `json.loads`.  Integer literals carry their
value (`num`); non-integer numeric literals (floats, exponents, NaN/Infinity) are
kept as their literal text (`numRaw`), since no claim depends on float arithmetic. -/
inductive Json where
  | null
  | bool (b : Bool)
  | num (n : Int)
  | numRaw (lit : List Char)
  | str (s : List Char)
  | arr (elems : List Json)
  | obj (members : List (List Char × Json))

/-- Python exceptions that can escape the modelled code paths. -/
inductive PyError where
  | keyError (k : List Char)
  | typeError
  | unboundLocal
  | jsonDecodeError
  | raised
deriving DecidableEq

/-- JSON inter-token whitespace accepted by `json.loads`. -/
def isJsonWs (c : Char) : Bool := c == ' ' || c == '\t' || c == '\n' || c == '\r'

/-- Skip JSON whitespace. -/
def skipWs (s : List Char) : List Char := s.dropWhile isJsonWs

/-- Digits to a natural number. -/
def toNatDigits (ds : List Char) : Nat := ds.foldl (fun a c => a * 10 + (c.toNat - 48)) 0

/-- One-character string escapes accepted by `json.loads`. -/
def escChar : Char → Option Char
  | '"' => some '"'
  | '\\' => some '\\'
  | '/' => some '/'
  | 'b' => some '\x08'
  | 'f' => some '\x0c'
  | 'n' => some '\n'
  | 'r' => some '\r'
  | 't' => some '\t'
  | _ => none

/-- Value of a hex digit. -/
def hexVal (c : Char) : Option Nat :=
  if c.isDigit then some (c.toNat - 48)
  else if 'a' ≤ c ∧ c ≤ 'f' then some (c.toNat - 87)
  else if 'A' ≤ c ∧ c ≤ 'F' then some (c.toNat - 55)
  else none

/-- Body of a JSON string after the opening quote: returns the decoded content and
the remainder after the closing quote.  Models `json.loads` strict strings: raw
control characters are rejected; `\uXXXX` is supported for non-surrogate code
points (surrogate pairs are out of the modelled fragment). -/
def parseStringBody : List Char → Except Unit (List Char × List Char)
  | [] => Except.error ()
  | '"' :: rest => Except.ok ([], rest)
  | '\\' :: 'u' :: h1 :: h2 :: h3 :: h4 :: rest =>
    (match hexVal h1, hexVal h2, hexVal h3, hexVal h4 with
     | some x, some y, some z, some w =>
       let n := ((x * 16 + y) * 16 + z) * 16 + w
       if 0xD800 ≤ n ∧ n < 0xE000 then Except.error ()
       else (parseStringBody rest).map (fun p => (Char.ofNat n :: p.1, p.2))
     | _, _, _, _ => Except.error ())
  | '\\' :: [] => Except.error ()
  | '\\' :: e :: rest =>
    (match escChar e with
     | none => Except.error ()
     | some d => (parseStringBody rest).map (fun p => (d :: p.1, p.2)))
  | c :: rest =>
    if c.toNat < 32 then Except.error ()
    else (parseStringBody rest).map (fun p => (c :: p.1, p.2))

/-- Negate a parsed numeric literal. -/
def negJson : Json → Json
  | Json.num n => Json.num (-n)
  | Json.numRaw l => Json.numRaw ('-' :: l)
  | j => j

/-- Exponent digits of a numeric literal. -/
def expDigits (lit : List Char) (s : List Char) : Except Unit (Json × List Char) :=
  let es := s.takeWhile Char.isDigit
  if es.isEmpty then Except.error ()
  else Except.ok (Json.numRaw (lit ++ es), s.dropWhile Char.isDigit)

/-- Optional exponent part after a mantissa literal. -/
def parseExpOpt (lit : List Char) (s : List Char) : Except Unit (Json × List Char) :=
  match s with
  | c :: r =>
    if c == 'e' || c == 'E' then
      match r with
      | '+' :: t => expDigits (lit ++ [c, '+']) t
      | '-' :: t => expDigits (lit ++ [c, '-']) t
      | _ => expDigits (lit ++ [c]) r
    else Except.ok (Json.numRaw lit, c :: r)
  | [] => Except.ok (Json.numRaw lit, [])

/-- Unsigned JSON number (integer, or kept literal for fraction/exponent forms). -/
def parseUNumber (s : List Char) : Except Unit (Json × List Char) :=
  let ds := s.takeWhile Char.isDigit
  let r1 := s.dropWhile Char.isDigit
  if ds.isEmpty then Except.error ()
  else if ds.length > 1 && ds.headD ' ' == '0' then Except.error ()
  else
    match r1 with
    | '.' :: r2 =>
      let fs := r2.takeWhile Char.isDigit
      let r3 := r2.dropWhile Char.isDigit
      if fs.isEmpty then Except.error ()
      else parseExpOpt (ds ++ '.' :: fs) r3
    | 'e' :: _ => parseExpOpt ds r1
    | 'E' :: _ => parseExpOpt ds r1
    | _ => Except.ok (Json.num ((toNatDigits ds : Nat) : Int), r1)

/-- Literal tails used by the JSON parser. -/
def litTrue : List Char := "rue".data

/-- Literal tail of `false`. -/
def litFalse : List Char := "alse".data

/-- Literal tail of `null`. -/
def litNull : List Char := "ull".data

/-- Literal tail of `NaN`. -/
def litNaN : List Char := "aN".data

/-- Literal tail of `Infinity`. -/
def litInf : List Char := "nfinity".data

/-- Full literal `NaN`. -/
def litNaNLit : List Char := "NaN".data

/-- Full literal `Infinity`. -/
def litInfLit : List Char := "Infinity".data

/-- Full literal `-Infinity`. -/
def litNegInfLit : List Char := "-Infinity".data

/-- JSON number (with optional sign; `json.loads` also accepts `-Infinity`). -/
def parseNumber (s : List Char) : Except Unit (Json × List Char) :=
  match s with
  | '-' :: rest =>
    if leadsWith litInfLit rest then Except.ok (Json.numRaw litNegInfLit, rest.drop 8)
    else (parseUNumber rest).map (fun p => (negJson p.1, p.2))
  | _ => parseUNumber s

/-- Parser modes: a JSON value, or the interior of an array/object. -/
inductive PMode where
  | value
  | arrStart
  | arrRest (acc : List Json)
  | objStart
  | objRest (acc : List (List Char × Json))

/-- Fuelled recursive-descent parser for the JSON fragment accepted by
`json.loads`.  Every recursive call is made on whitespace-skipped input. -/
def pj : Nat → PMode → List Char → Except Unit (Json × List Char)
  | 0, _, _ => Except.error ()
  | _ + 1, PMode.value, [] => Except.error ()
  | f + 1, PMode.value, c :: rest =>
    if c == '"' then (parseStringBody rest).map (fun p => (Json.str p.1, p.2))
    else if c == '\x7b' then pj f PMode.objStart (skipWs rest)
    else if c == '[' then pj f PMode.arrStart (skipWs rest)
    else if c == 't' then
      (if leadsWith litTrue rest then Except.ok (Json.bool true, rest.drop 3) else Except.error ())
    else if c == 'f' then
      (if leadsWith litFalse rest then Except.ok (Json.bool false, rest.drop 4) else Except.error ())
    else if c == 'n' then
      (if leadsWith litNull rest then Except.ok (Json.null, rest.drop 3) else Except.error ())
    else if c == 'N' then
      (if leadsWith litNaN rest then Except.ok (Json.numRaw litNaNLit, rest.drop 2) else Except.error ())
    else if c == 'I' then
      (if leadsWith litInf rest then Except.ok (Json.numRaw litInfLit, rest.drop 7) else Except.error ())
    else parseNumber (c :: rest)
  | f + 1, PMode.arrStart, s =>
    (match s with
     | ']' :: rest => Except.ok (Json.arr [], rest)
     | _ =>
       match pj f PMode.value s with
       | Except.error u => Except.error u
       | Except.ok (v, r) => pj f (PMode.arrRest [v]) (skipWs r))
  | f + 1, PMode.arrRest acc, s =>
    (match s with
     | ']' :: rest => Except.ok (Json.arr acc.reverse, rest)
     | ',' :: rest =>
       (match pj f PMode.value (skipWs rest) with
        | Except.error u => Except.error u
        | Except.ok (v, r) => pj f (PMode.arrRest (v :: acc)) (skipWs r))
     | _ => Except.error ())
  | f + 1, PMode.objStart, s =>
    (match s with
     | '\x7d' :: rest => Except.ok (Json.obj [], rest)
     | '"' :: rest =>
       (match parseStringBody rest with
        | Except.error u => Except.error u
        | Except.ok (k, r1) =>
          match skipWs r1 with
          | ':' :: r2 =>
            (match pj f PMode.value (skipWs r2) with
             | Except.error u => Except.error u
             | Except.ok (v, r3) => pj f (PMode.objRest [(k, v)]) (skipWs r3))
          | _ => Except.error ())
     | _ => Except.error ())
  | f + 1, PMode.objRest acc, s =>
    (match s with
     | '\x7d' :: rest => Except.ok (Json.obj acc.reverse, rest)
     | ',' :: rest =>
       (match skipWs rest with
        | '"' :: r0 =>
          (match parseStringBody r0 with
           | Except.error u => Except.error u
           | Except.ok (k, r1) =>
             match skipWs r1 with
             | ':' :: r2 =>
               (match pj f PMode.value (skipWs r2) with
                | Except.error u => Except.error u
                | Except.ok (v, r3) => pj f (PMode.objRest ((k, v) :: acc)) (skipWs r3))
             | _ => Except.error ())
        | _ => Except.error ())
     | _ => Except.error ())

/-- Python `json.loads` on the modelled fragment: parse one value surrounded by
optional whitespace; anything else raises `JSONDecodeError` (modelled as `error`). -/
def json_loads (s : List Char) : Except Unit Json :=
  match pj (2 * s.length + 4) PMode.value (skipWs s) with
  | Except.ok (v, rest) => if (skipWs rest).isEmpty then Except.ok v else Except.error ()
  | Except.error _ => Except.error ()

/-- Whether a literal numeric text denotes zero (for Python float truthiness). -/
def isZeroLit (l : List Char) : Bool :=
  let body := if leadsWith ['-'] l then l.drop 1 else l
  let core := body.takeWhile (fun c => c.isDigit || c == '.')
  !core.isEmpty && core.all (fun c => c == '0' || c == '.')

/-- Python truthiness of a `json.loads` value (`if ai_response:` at app.py
lines 224 and 254). -/
def truthy : Json → Bool
  | Json.null => false
  | Json.bool b => b
  | Json.num n => n != 0
  | Json.numRaw lit => !isZeroLit lit
  | Json.str s => !s.isEmpty
  | Json.arr xs => !xs.isEmpty
  | Json.obj ms => !ms.isEmpty

/-- Last binding of a key in an object member list (Python dicts built by
`json.loads` keep the last duplicate). -/
def lookupLast (ms : List (List Char × Json)) (k : List Char) : Option Json :=
  match ms with
  | [] => none
  | (k0, v0) :: rest =>
    match lookupLast rest k with
    | some v => some v
    | none => if k0 = k then some v0 else none

/-- Python subscript `j[k]` with a string key: `KeyError` on a dict without the
key, `TypeError` on any non-dict value. -/
def getItem (j : Json) (k : List Char) : Except PyError Json :=
  match j with
  | Json.obj ms =>
    (match lookupLast ms k with
     | some v => Except.ok v
     | none => Except.error (PyError.keyError k))
  | _ => Except.error PyError.typeError

/-- Required reply keys used by the story handlers (app.py lines 225-230, 253-260). -/
def kNarr : List Char := "narrative_chapter".data

/-- Key `next_choices`. -/
def kChoices : List Char := "next_choices".data

/-- Key `image_prompt`. -/
def kImg : List Char := "image_prompt".data

/-- Key `artifacts` in the Stability response envelope. -/
def kArtifacts : List Char := "artifacts".data

/-- Key `base64` in the Stability response envelope. -/
def kBase64 : List Char := "base64".data

/-- app.py lines 65-90, `generate_story_chapter` after the prompt is built.  The
argument is the outcome of `model.generate_content(prompt, ...)`: either the
reply text, or `error` when the call raised.  On a reply, the code cleans the
text, runs `json.loads`, and returns the parsed value; if `json.loads` raises,
the `except` block shows an error plus the raw reply and returns `None`.  If
`generate_content` itself raised, the `except` block evaluates
`st.code(response.text)` with the local `response` never assigned, so an
`UnboundLocalError` escapes the function. -/
def generate_story_chapter (genOutcome : Except Unit (List Char)) : Except PyError (Option Json) :=
  match genOutcome with
  | Except.error _ => Except.error PyError.unboundLocal
  | Except.ok raw =>
    match json_loads (clean raw) with
    | Except.ok data => Except.ok (some data)
    | Except.error _ => Except.ok none

/-- Outcome of the Stability HTTP round trip in `generate_image_stability`:
`requests.post`/other code raised a non-HTTP exception, or `raise_for_status`
raised `HTTPError` with the given response body, or a 2xx response arrived with
the given body. -/
inductive ImgOutcome where
  | raisedOther
  | httpError (body : List Char)
  | success (body : List Char)

/-- A decoded PIL image, identified by the base64 payload it was opened from. -/
structure PILImage where
  b64 : List Char
deriving DecidableEq

/-- app.py lines 92-129, `generate_image_stability`.  Missing key: warn and
return `None`.  Non-HTTP exception anywhere in the `try`: caught by
`except Exception`, return `None`.  `HTTPError`: the handler prints the status
and then `st.json(e.response.json())`; if the error body is not valid JSON this
second call raises inside the `except` block and the exception escapes the
function.  On success, `data["artifacts"][0]["base64"]` is decoded and opened;
any failure in that chain is caught by `except Exception` and yields `None`. -/
def generate_image_stability (keyConfigured : Bool) (outcome : ImgOutcome) :
    Except PyError (Option PILImage) :=
  if !keyConfigured then Except.ok none
  else
    match outcome with
    | ImgOutcome.raisedOther => Except.ok none
    | ImgOutcome.httpError body =>
      (match json_loads body with
       | Except.ok _ => Except.ok none
       | Except.error _ => Except.error PyError.jsonDecodeError)
    | ImgOutcome.success body =>
      (match json_loads body with
       | Except.error _ => Except.ok none
       | Except.ok data =>
         match getItem data kArtifacts with
         | Except.error _ => Except.ok none
         | Except.ok arts =>
           match arts with
           | Json.arr (first :: _) =>
             (match getItem first kBase64 with
              | Except.ok (Json.str b) => Except.ok (some (PILImage.mk b))
              | _ => Except.ok none)
           | _ => Except.ok none)

/-- The three UI stages stored in `st.session_state.app_stage`. -/
inductive Stage where
  | world_forge
  | story_start
  | story_cycle
deriving DecidableEq

/-- One transcript entry: `{"text": ..., "image": ...}` (app.py lines 227-229, 256).
The text is whatever JSON value the reply carried. -/
structure Chapter where
  text : Json
  image : Option PILImage

/-- The session state fields initialised at app.py lines 199-203. -/
structure SessionState where
  app_stage : Stage
  world_bible : Option (List Char)
  story_chapters : List Chapter
  latest_choices : Json

/-- app.py lines 199-203: first-run initialisation of `st.session_state`. -/
def init_session : SessionState :=
  { app_stage := Stage.world_forge
    world_bible := none
    story_chapters := []
    latest_choices := Json.arr [] }

/-- `" ".join(...)` fails with `TypeError` unless every element is a `str`. -/
def strTexts : List Chapter → Except PyError (List (List Char))
  | [] => Except.ok []
  | ch :: rest =>
    match ch.text with
    | Json.str s =>
      (match strTexts rest with
       | Except.ok ss => Except.ok (s :: ss)
       | Except.error e => Except.error e)
    | _ => Except.error PyError.typeError

/-- app.py line 252: `" ".join([ch['text'] for ch in st.session_state.story_chapters])`. -/
def pyJoinTexts (chs : List Chapter) : Except PyError (List Char) :=
  match strTexts chs with
  | Except.ok ss => Except.ok (List.intercalate [' '] ss)
  | Except.error e => Except.error e

/-- Oracle for the Gemini call inside `generate_story_chapter`: from
(story context, world bible, user choice) to the `generate_content` outcome. -/
abbrev RawGen := List Char → Option (List Char) → List Char → Except Unit (List Char)

/-- Oracle choosing the Stability HTTP outcome for a given image prompt. -/
abbrev ImgOracle := Json → ImgOutcome

/-- app.py lines 249-262, the `choice_form` submit handler in the `story_cycle`
stage.  Mutations of `st.session_state` persist in the returned state even when
a later expression raises (second component `some e`); Streamlit reruns the
script with the partially mutated session state.  The final narration call
(`generate_and_play_audio`, line 260) re-reads `ai_response["narrative_chapter"]`
and otherwise only plays audio, catching its own exceptions, so it cannot
change the state. -/
def story_cycle_handler (gen : RawGen) (keyConfigured : Bool) (imgO : ImgOracle)
    (st0 : SessionState) (choice_made : List Char) : SessionState × Option PyError :=
  match pyJoinTexts st0.story_chapters with
  | Except.error e => (st0, some e)
  | Except.ok story_so_far =>
    match generate_story_chapter (gen story_so_far st0.world_bible choice_made) with
    | Except.error e => (st0, some e)
    | Except.ok none => (st0, none)
    | Except.ok (some data) =>
      if !truthy data then (st0, none)
      else
        match getItem data kImg with
        | Except.error e => (st0, some e)
        | Except.ok ip =>
          match generate_image_stability keyConfigured (imgO ip) with
          | Except.error e => (st0, some e)
          | Except.ok new_image =>
            match getItem data kNarr with
            | Except.error e => (st0, some e)
            | Except.ok nc =>
              let st1 : SessionState :=
                { st0 with story_chapters := st0.story_chapters ++ [Chapter.mk nc new_image] }
              match getItem data kChoices with
              | Except.error e => (st1, some e)
              | Except.ok ncs =>
                let st2 : SessionState := { st1 with latest_choices := ncs }
                match getItem data kNarr with
                | Except.error e => (st2, some e)
                | Except.ok _ => (st2, none)

/-- app.py lines 219-232, the `start_story_form` submit handler in the
`story_start` stage.  The guard `... and initial_prompt` skips everything for an
empty opening sentence.  The opening sentence is passed both as the story
context placeholder and as the user choice (line 223).  The user chapter is
appended before `ai_response["narrative_chapter"]` is read for the AI chapter,
so a reply with `image_prompt` but without `narrative_chapter` leaves only the
user chapter appended when the `KeyError` escapes. -/
def story_start_handler (gen : RawGen) (keyConfigured : Bool) (imgO : ImgOracle)
    (st0 : SessionState) (initial_prompt : List Char) : SessionState × Option PyError :=
  if initial_prompt.isEmpty then (st0, none)
  else
    match generate_story_chapter (gen initial_prompt st0.world_bible initial_prompt) with
    | Except.error e => (st0, some e)
    | Except.ok none => (st0, none)
    | Except.ok (some data) =>
      if !truthy data then (st0, none)
      else
        match getItem data kImg with
        | Except.error e => (st0, some e)
        | Except.ok ip =>
          match generate_image_stability keyConfigured (imgO ip) with
          | Except.error e => (st0, some e)
          | Except.ok initial_image =>
            let st1 : SessionState :=
              { st0 with story_chapters :=
                  st0.story_chapters ++ [Chapter.mk (Json.str initial_prompt) none] }
            match getItem data kNarr with
            | Except.error e => (st1, some e)
            | Except.ok nc =>
              let st2 : SessionState :=
                { st1 with story_chapters := st1.story_chapters ++ [Chapter.mk nc initial_image] }
              match getItem data kChoices with
              | Except.error e => (st2, some e)
              | Except.ok ncs =>
                ({ st2 with latest_choices := ncs, app_stage := Stage.story_cycle }, none)

/-- app.py lines 205-214, the `world_forge_form` submit handler: a successful
`generate_world_bible` call stores the text and moves the stage to
`story_start`; if the (uncaught) Gemini call raises, nothing is mutated. -/
def world_forge_handler (wbOutcome : Except Unit (List Char)) (st0 : SessionState) :
    SessionState × Option PyError :=
  match wbOutcome with
  | Except.error _ => (st0, some PyError.raised)
  | Except.ok wb =>
    ({ st0 with world_bible := some wb, app_stage := Stage.story_start }, none)

/-- app.py lines 267-271: the restart button deletes every `st.session_state`
key, leaving the session dictionary empty. -/
def restart_handler (_s : SessionState) : Option SessionState := none

/-- app.py lines 199-203 on rerun: a session without `app_stage` is initialised. -/
def ensure_initialized : Option SessionState → SessionState
  | none => init_session
  | some s => s

/-- User-visible events dispatched by the rendered page; each carries the
oracles for the external calls the corresponding handler would make. -/
inductive Event where
  | forgeSubmit (wbOutcome : Except Unit (List Char))
  | startSubmit (prompt : List Char) (gen : RawGen) (keyConfigured : Bool) (imgO : ImgOracle)
  | cycleSubmit (choice : List Char) (gen : RawGen) (keyConfigured : Bool) (imgO : ImgOracle)
  | restartClick

/-- The session-state transition for one event.  Each form only exists in its
stage (app.py lines 205, 216, 234), and the choice form is rendered only when
`latest_choices` is truthy (line 248); events arriving in other stages are
no-ops. -/
def step (st : SessionState) : Event → SessionState
  | Event.forgeSubmit wb =>
    if st.app_stage = Stage.world_forge then (world_forge_handler wb st).1 else st
  | Event.startSubmit p g kc io =>
    if st.app_stage = Stage.story_start then (story_start_handler g kc io st p).1 else st
  | Event.cycleSubmit c g kc io =>
    if st.app_stage = Stage.story_cycle ∧ truthy st.latest_choices = true then
      (story_cycle_handler g kc io st c).1
    else st
  | Event.restartClick => ensure_initialized (restart_handler st)

/-- Run a sequence of events from the freshly initialised session. -/
def runEvents (evts : List Event) : SessionState := evts.foldl step init_session

/-- First binding of a key in the memoisation cache. -/
def pyLookup (cache : List (List Char × Option Json)) (k : List Char) : Option (Option Json) :=
  match cache with
  | [] => none
  | (k0, v) :: rest => if k0 = k then some v else pyLookup rest k

/-- Modelled from the documented semantics of the `@st.cache_data` decorator on
`generate_story_chapter` (app.py line 65): parameters whose names start with an
underscore (`_story_context`, `_world_bible`) are excluded from the cache key,
so the key is `user_choice` alone; return values (including `None`) are cached,
while raised exceptions are not. -/
def cached_generate_story_chapter (gen : RawGen) (cache : List (List Char × Option Json))
    (story_context : List Char) (world_bible : Option (List Char)) (user_choice : List Char) :
    Except PyError (Option Json × List (List Char × Option Json)) :=
  match pyLookup cache user_choice with
  | some v => Except.ok (v, cache)
  | none =>
    match generate_story_chapter (gen story_context world_bible user_choice) with
    | Except.error e => Except.error e
    | Except.ok v => Except.ok (v, (user_choice, v) :: cache)

/-- The error shown before `st.stop()` when the Google key is missing (app.py line 43). -/
def googleMissingMsg : List Char :=
  "Google API Key not found. Please set it in your secrets or .env file.".data

/-- Result of the startup configuration block (app.py lines 40-47). -/
inductive StartupOutcome where
  | halted (msg : List Char)
  | proceeded (elevenWarned : Bool)
deriving DecidableEq

/-- Python truthiness of a credential loaded by `load_api_keys`: `None` when the
variable is unset, and the empty string is also falsy. -/
def pyTruthyKey : Option (List Char) → Bool
  | none => false
  | some s => !s.isEmpty

/-- app.py lines 40-47: if `GOOGLE_API_KEY` is falsy the script shows which key
is missing and halts via `st.stop()`; otherwise it proceeds, at most warning
when the ElevenLabs key is missing.  The Stability key is not checked at
startup (only inside `generate_image_stability`). -/
def startup_check (google _stability eleven : Option (List Char)) : StartupOutcome :=
  if pyTruthyKey google then StartupOutcome.proceeded (!pyTruthyKey eleven)
  else StartupOutcome.halted googleMissingMsg

/-! ### Concrete data used by witnesses and counterexamples -/

/-- A generator oracle that always returns the same reply text. -/
def genFixed (raw : List Char) : RawGen := fun _ _ _ => Except.ok raw

/-- An image oracle with a fixed outcome. -/
def imgFixed (o : ImgOutcome) : ImgOracle := fun _ => o

/-- A well-formed Stability success body. -/
def imgBodyOk : List Char := "\x7b\"artifacts\": [\x7b\"base64\": \"QUJD\"\x7d]\x7d".data

/-- A non-JSON Stability error body (e.g. an HTML or plain-text 500 page). -/
def htmlBody : List Char := "Internal Server Error".data

/-- A reply that is valid JSON but lacks `next_choices` and `image_prompt`. -/
def replyMissing : List Char := "\x7b\"narrative_chapter\": \"The end.\"\x7d".data

/-- A reply that is valid JSON with `narrative_chapter` and `image_prompt`
but without `next_choices`. -/
def replyNoChoices : List Char :=
  "\x7b\"narrative_chapter\": \"The gate opens.\", \"image_prompt\": \"a gate\"\x7d".data

/-- A fully well-formed reply with three choices. -/
def replyFull : List Char :=
  "\x7b\"narrative_chapter\": \"A door.\", \"next_choices\": [\"a\", \"b\", \"c\"], \"image_prompt\": \"door\"\x7d".data

/-- A fully well-formed reply whose `next_choices` is the empty array. -/
def replyEmptyChoices : List Char :=
  "\x7b\"narrative_chapter\": \"Dawn.\", \"next_choices\": [], \"image_prompt\": \"sun\"\x7d".data

/-- A reply that is not JSON at all. -/
def rawNotJson : List Char := "The dragon refuses to answer.".data

/-- A world-bible text. -/
def wbEx : List Char := "A quiet world.".data

/-- The text of the example chapter already in the transcript. -/
def txtOnce : List Char := "Once".data

/-- The narrative text inside `replyMissing`. -/
def txtEnd : List Char := "The end.".data

/-- The narrative text inside `replyFull`. -/
def txtDoor : List Char := "A door.".data

/-- The image prompt inside `replyFull`. -/
def promptDoor : List Char := "door".data

/-- The three choices inside `replyFull`. -/
def choicesABC : Json := Json.arr [Json.str ['a'], Json.str ['b'], Json.str ['c']]

/-- The value `json.loads` produces for `replyMissing`. -/
def objMissing : Json := Json.obj [(kNarr, Json.str txtEnd)]

/-- The value `json.loads` produces for `replyFull`. -/
def objFull : Json :=
  Json.obj [(kNarr, Json.str txtDoor), (kChoices, choicesABC), (kImg, Json.str promptDoor)]

/-- Example pending choices. -/
def txtGo : List Char := "Go".data

/-- Example pending choice. -/
def txtStay : List Char := "Stay".data

/-- Example pending choice. -/
def txtSing : List Char := "Sing".data

/-- A single existing chapter. -/
def chapEx : Chapter := Chapter.mk (Json.str txtOnce) none

/-- A reachable `story_cycle` state with one chapter and three pending choices. -/
def stEx : SessionState :=
  { app_stage := Stage.story_cycle
    world_bible := some wbEx
    story_chapters := [chapEx]
    latest_choices := Json.arr [Json.str txtGo, Json.str txtStay, Json.str txtSing] }

/-- The user choice submitted in the examples. -/
def choiceEx : List Char := "Go".data

/-- The opening sentence submitted in the examples. -/
def openingEx : List Char := "Opening line".data

/-- Event: forge the world successfully. -/
def evForge : Event := Event.forgeSubmit (Except.ok wbEx)

/-- Event: successful first turn whose reply carries an empty choice array
(no image credential configured). -/
def evStartEmptyChoices : Event :=
  Event.startSubmit openingEx (genFixed replyEmptyChoices) false (imgFixed ImgOutcome.raisedOther)

/-- The event trace for the pending-choices counterexample. -/
def evsC8 : List Event := [evForge, evStartEmptyChoices]

/-- Whitespace wrapper used by the parser-tolerance witness. -/
def wsA : List Char := ['\n', ' ']

/-- Whitespace wrapper used by the parser-tolerance witness. -/
def wsB : List Char := [' ', '\t']

/-- An example Google API key value. -/
def keyGoogleEx : List Char := "gkey".data

/-- An example Stability API key value. -/
def keyStabilityEx : List Char := "skey".data

/-- An example ElevenLabs API key value. -/
def keyElevenEx : List Char := "ekey".data

/-- A story context different from `txtOnce`, for the caching witness. -/
def otherCtx : List Char := "A completely different story so far".data

/-- A generator whose reply depends on the story context: it answers `replyFull`
for the context `txtOnce` and `replyMissing` for any other context. -/
def rawGenCtx : RawGen := fun ctx _ _ =>
  if ctx = txtOnce then Except.ok replyFull else Except.ok replyMissing

/-- A generator defined only at the space-joined transcript of `stEx`. -/
def g1w : RawGen := fun ctx _ _ =>
  if ctx = txtOnce then Except.ok replyFull else Except.error ()

/-- A generator that answers `replyFull` everywhere. -/
def g2w : RawGen := genFixed replyFull

/-! ### Lemmas about the string-cleaning pipeline -/

/-- `fjson` as an explicit character list. -/
theorem fjson_eq : fjson = ['`', '`', '`', 'j', 's', 'o', 'n'] := rfl

/-- `g3` as an explicit character list. -/
theorem g3_eq : g3 = ['`', '`', '`'] := rfl

/-- Fuel does not matter for `removeAllGo` once it covers the input length. -/
theorem removeAllGo_fuel (p : List Char) :
    ∀ (f g : Nat) (s : List Char), s.length ≤ f → s.length ≤ g →
      removeAllGo f p s = removeAllGo g p s := by
  intro f
  induction f with
  | zero =>
    intro g s hf _
    have hs : s = [] := List.length_eq_zero.mp (Nat.le_zero.mp hf)
    subst hs
    cases g <;> rfl
  | succ f ih =>
    intro g s hf hg
    cases s with
    | nil => cases g <;> rfl
    | cons c rest =>
      cases g with
      | zero => simp at hg
      | succ g' =>
        simp only [List.length_cons] at hf hg
        simp only [removeAllGo]
        by_cases h : leadsWith p (c :: rest) = true
        · rw [if_pos h, if_pos h]
          apply ih
          · have := List.length_drop (p.length - 1) rest
            omega
          · have := List.length_drop (p.length - 1) rest
            omega
        · rw [if_neg h, if_neg h]
          rw [ih g' rest (by omega) (by omega)]

/-- One-step unfolding of `removeAll` on a cons cell. -/
theorem removeAll_cons (p : List Char) (c : Char) (rest : List Char) :
    removeAll p (c :: rest) =
      if leadsWith p (c :: rest) then removeAll p (List.drop (p.length - 1) rest)
      else c :: removeAll p rest := by
  unfold removeAll
  simp only [List.length_cons, removeAllGo]
  by_cases h : leadsWith p (c :: rest) = true
  · rw [if_pos h, if_pos h]
    apply removeAllGo_fuel
    · have := List.length_drop (p.length - 1) rest
      omega
    · exact le_refl _
  · rw [if_neg h, if_neg h]

/-- `leadsWith` is the prefix relation. -/
theorem leadsWith_iff (p : List Char) :
    ∀ s : List Char, leadsWith p s = true ↔ ∃ r, s = p ++ r := by
  induction p with
  | nil =>
    intro s
    simp [leadsWith]
  | cons a p ih =>
    intro s
    cases s with
    | nil =>
      simp [leadsWith]
    | cons b s =>
      simp only [leadsWith, Bool.and_eq_true, beq_iff_eq, ih, List.cons_append,
        List.cons.injEq]
      constructor
      · rintro ⟨hab, r, hr⟩
        exact ⟨r, hab.symm, hr⟩
      · rintro ⟨r, hba, hr⟩
        exact ⟨hba.symm, r, hr⟩

/-- A list starts with itself. -/
theorem leadsWith_append_self (p r : List Char) : leadsWith p (p ++ r) = true :=
  (leadsWith_iff p (p ++ r)).mpr ⟨r, rfl⟩

/-- A prefix is no longer than the whole. -/
theorem leadsWith_length {p s : List Char} (h : leadsWith p s = true) :
    p.length ≤ s.length := by
  obtain ⟨r, rfl⟩ := (leadsWith_iff p s).mp h
  simp

/-- Being a prefix is stable under appending on the right. -/
theorem leadsWith_mono {p x : List Char} (y : List Char) (h : leadsWith p x = true) :
    leadsWith p (x ++ y) = true := by
  obtain ⟨r, rfl⟩ := (leadsWith_iff p x).mp h
  rw [List.append_assoc]
  exact leadsWith_append_self p (r ++ y)

/-- A prefix of `x ++ y` is a prefix of `x`, or spills over: `p = x ++ y1` with
`y1` a nonempty prefix of `y`. -/
theorem leadsWith_append_split {p x y : List Char} (h : leadsWith p (x ++ y) = true) :
    leadsWith p x = true ∨ ∃ y1 y2, y = y1 ++ y2 ∧ y1 ≠ [] ∧ p = x ++ y1 := by
  induction x generalizing p with
  | nil =>
    cases p with
    | nil => left; rfl
    | cons a p' =>
      right
      obtain ⟨r, hr⟩ := (leadsWith_iff _ _).mp h
      exact ⟨a :: p', r, by simpa using hr, by simp, by simp⟩
  | cons b x' ih =>
    cases p with
    | nil => left; rfl
    | cons a p' =>
      rw [List.cons_append] at h
      simp only [leadsWith, Bool.and_eq_true, beq_iff_eq] at h
      obtain ⟨hab, h2⟩ := h
      rcases ih h2 with h3 | ⟨y1, y2, hy, hne, hp⟩
      · left
        simp [leadsWith, hab, h3]
      · right
        exact ⟨y1, y2, hy, hne, by rw [List.cons_append, hp, hab]⟩

/-- The head of the reversal of `x ++ y` only depends on `y` when `y` is nonempty. -/
theorem rev_head_of_append {x y : List Char} (hy : y ≠ []) :
    (x ++ y).reverse.head? = y.reverse.head? := by
  rw [List.reverse_append]
  cases hyr : y.reverse with
  | nil => exact absurd (by simpa using hyr) hy
  | cons c t => simp

/-- A nonempty list has a last element, found as the head of its reversal. -/
theorem rev_head_mem {y : List Char} (hy : y ≠ []) :
    ∃ c, y.reverse.head? = some c ∧ c ∈ y := by
  cases hyr : y.reverse with
  | nil => exact absurd (by simpa using hyr) hy
  | cons c t =>
    refine ⟨c, rfl, ?_⟩
    have hc : c ∈ y.reverse := by rw [hyr]; exact List.mem_cons_self c t
    simpa using hc

/-- Removing a pattern from a string it starts with removes that occurrence first. -/
theorem removeAll_prefix_self {p : List Char} (hp : p ≠ []) (r : List Char) :
    removeAll p (p ++ r) = removeAll p r := by
  cases p with
  | nil => exact absurd rfl hp
  | cons a p' =>
    rw [List.cons_append, removeAll_cons]
    have hlw : leadsWith (a :: p') (a :: (p' ++ r)) = true := leadsWith_append_self (a :: p') r
    rw [if_pos hlw]
    have hlen : (a :: p').length - 1 = p'.length := by simp
    rw [hlen, List.drop_left]

/-- A string whose characters never match the last character of the (nonempty)
pattern contains no occurrence, so `removeAll` leaves it unchanged. -/
theorem removeAll_no_occurrence {p : List Char} (hp : p ≠ []) :
    ∀ s : List Char, (∀ c ∈ s, p.reverse.head? ≠ some c) → removeAll p s = s := by
  intro s
  induction s with
  | nil => intro _; rfl
  | cons c rest ih =>
    intro H
    rw [removeAll_cons]
    have hnl : ¬ leadsWith p (c :: rest) = true := by
      intro h
      obtain ⟨r, hr⟩ := (leadsWith_iff _ _).mp h
      obtain ⟨d, hd, hdm⟩ := rev_head_mem hp
      have hmem : d ∈ c :: rest := by
        rw [hr]
        exact List.mem_append_left r hdm
      exact H d hmem hd
    rw [if_neg hnl]
    rw [ih (fun d hdm => H d (List.mem_cons_of_mem _ hdm))]

/-- `removeAll` distributes over a suffix none of whose characters can end an
occurrence of the pattern. -/
theorem removeAll_append_right_n {p suf : List Char} (hp : p ≠ [])
    (H : ∀ c ∈ suf, p.reverse.head? ≠ some c) :
    ∀ (n : Nat) (t : List Char), t.length ≤ n →
      removeAll p (t ++ suf) = removeAll p t ++ suf := by
  intro n
  induction n with
  | zero =>
    intro t ht
    have hng : t = [] := List.length_eq_zero.mp (Nat.le_zero.mp ht)
    subst hng
    rw [List.nil_append, removeAll_no_occurrence hp suf H]
    rfl
  | succ n ih =>
    intro t ht
    cases t with
    | nil =>
      rw [List.nil_append, removeAll_no_occurrence hp suf H]
      rfl
    | cons c t' =>
      simp only [List.length_cons] at ht
      rw [List.cons_append, removeAll_cons, removeAll_cons]
      by_cases h1 : leadsWith p (c :: t') = true
      · have h2 : leadsWith p (c :: (t' ++ suf)) = true := by
          rw [← List.cons_append]
          exact leadsWith_mono suf h1
        rw [if_pos h1, if_pos h2]
        have hlen : p.length ≤ t'.length + 1 := by simpa using leadsWith_length h1
        have hdrop : List.drop (p.length - 1) (t' ++ suf)
            = List.drop (p.length - 1) t' ++ suf :=
          List.drop_append_of_le_length (by omega)
        rw [hdrop]
        apply ih
        have := List.length_drop (p.length - 1) t'
        omega
      · by_cases h2 : leadsWith p (c :: (t' ++ suf)) = true
        · exfalso
          have h2' : leadsWith p ((c :: t') ++ suf) = true := by
            rw [List.cons_append]
            exact h2
          rcases leadsWith_append_split h2' with h3 | ⟨y1, y2, hy, hne, hpxy⟩
          · exact h1 h3
          · obtain ⟨d, hd, hdm⟩ := rev_head_mem hne
            have hrev : p.reverse.head? = some d := by
              rw [hpxy, rev_head_of_append hne, hd]
            have hds : d ∈ suf := by
              rw [hy]
              exact List.mem_append_left _ hdm
            exact H d hds hrev
        · rw [if_neg h1, if_neg h2, ih t' (by omega)]
          rfl

/-- Wrapper for `removeAll_append_right_n` at the exact length. -/
theorem removeAll_append_right {p suf : List Char} (hp : p ≠ [])
    (H : ∀ c ∈ suf, p.reverse.head? ≠ some c) (t : List Char) :
    removeAll p (t ++ suf) = removeAll p t ++ suf :=
  removeAll_append_right_n hp H t.length t (le_refl _)

/-- `removeAll` skips over a prefix none of whose characters can start an
occurrence of the pattern. -/
theorem removeAll_append_left {p : List Char} (a : Char) (p' : List Char)
    (hp : p = a :: p') (t : List Char) :
    ∀ pre : List Char, (∀ c ∈ pre, c ≠ a) →
      removeAll p (pre ++ t) = pre ++ removeAll p t := by
  subst hp
  intro pre
  induction pre with
  | nil => intro _; simp
  | cons c pre' ih =>
    intro hpre
    have hca : c ≠ a := hpre c (List.mem_cons_self _ _)
    rw [List.cons_append, removeAll_cons]
    have hnl : ¬ leadsWith (a :: p') (c :: (pre' ++ t)) = true := by
      simp only [leadsWith, Bool.and_eq_true, beq_iff_eq]
      rintro ⟨hac, -⟩
      exact hca hac.symm
    rw [if_neg hnl, ih (fun d hd => hpre d (List.mem_cons_of_mem _ hd))]
    rfl

/-- Appending one extra `` ``` `` to a string removes exactly that marker again:
the trailing run of backticks left by `removeAll g3` is at most two long, so the
appended fence merges into a run from which one more occurrence is removed. -/
theorem removeAll_g3_tail_n :
    ∀ (n : Nat) (y : List Char), y.length ≤ n →
      removeAll g3 (y ++ g3) = removeAll g3 y := by
  intro n
  induction n with
  | zero =>
    intro y hy
    have hng : y = [] := List.length_eq_zero.mp (Nat.le_zero.mp hy)
    subst hng
    rw [List.nil_append]
    have h := removeAll_prefix_self (p := g3) (by rw [g3_eq]; simp) []
    rw [List.append_nil] at h
    rw [h]
  | succ n ih =>
    intro y hy
    cases y with
    | nil =>
      rw [List.nil_append]
      have h := removeAll_prefix_self (p := g3) (by rw [g3_eq]; simp) []
      rw [List.append_nil] at h
      rw [h]
    | cons c y' =>
      simp only [List.length_cons] at hy
      rw [List.cons_append, removeAll_cons, removeAll_cons]
      by_cases h1 : leadsWith g3 (c :: y') = true
      · have h2 : leadsWith g3 (c :: (y' ++ g3)) = true := by
          rw [← List.cons_append]
          exact leadsWith_mono g3 h1
        rw [if_pos h1, if_pos h2]
        have hlen : g3.length ≤ y'.length + 1 := by simpa using leadsWith_length h1
        rw [g3_eq] at hlen
        simp only [List.length_cons, List.length_nil] at hlen
        have hdrop : List.drop (g3.length - 1) (y' ++ g3)
            = List.drop (g3.length - 1) y' ++ g3 := by
          apply List.drop_append_of_le_length
          rw [g3_eq]
          simp only [List.length_cons, List.length_nil]
          omega
        rw [hdrop]
        apply ih
        have := List.length_drop (g3.length - 1) y'
        omega
      · by_cases h2 : leadsWith g3 (c :: (y' ++ g3)) = true
        · have h2' : leadsWith g3 ((c :: y') ++ g3) = true := by
            rw [List.cons_append]
            exact h2
          rcases leadsWith_append_split h2' with h3 | ⟨y1, y2, hy12, hne, hpxy⟩
          · exact absurd h3 h1
          · -- g3 = (c :: y') ++ y1 with y1 ≠ [] forces y' ∈ {[], ['`']}
            cases y' with
            | nil =>
              have hc : c = '`' ∧ y1 = ['`', '`'] := by
                rw [g3_eq] at hpxy
                simp only [List.cons_append, List.nil_append, List.cons.injEq] at hpxy
                exact ⟨hpxy.1.symm, hpxy.2.symm⟩
              obtain ⟨hc1, -⟩ := hc
              subst hc1
              rw [if_pos h2, if_neg h1]
              rfl
            | cons d y'' =>
              cases y'' with
              | nil =>
                have hcd : c = '`' ∧ d = '`' := by
                  rw [g3_eq] at hpxy
                  simp only [List.cons_append, List.nil_append, List.cons.injEq] at hpxy
                  exact ⟨hpxy.1.symm, hpxy.2.1.symm⟩
                obtain ⟨hc1, hd1⟩ := hcd
                subst hc1
                subst hd1
                rw [if_pos h2, if_neg h1]
                rfl
              | cons e y''' =>
                exfalso
                have hl1 : (3 : Nat) = (3 + y'''.length) + y1.length := by
                  have hc := congrArg List.length hpxy
                  rw [g3_eq] at hc
                  simpa [Nat.add_comm, Nat.add_assoc, Nat.add_left_comm] using hc
                have hy1 : 1 ≤ y1.length := by
                  cases y1 with
                  | nil => exact absurd rfl hne
                  | cons z zs => simp
                omega
        · rw [if_neg h1, if_neg h2, ih y' (by omega)]

/-- Wrapper for `removeAll_g3_tail_n` at the exact length. -/
theorem removeAll_g3_tail (y : List Char) :
    removeAll g3 (y ++ g3) = removeAll g3 y :=
  removeAll_g3_tail_n y.length y (le_refl _)

/-- `lstrip` does not touch a string starting with a non-space character. -/
theorem lstrip_cons_nonspace {c : Char} (h : isPySpace c = false) (l : List Char) :
    lstrip (c :: l) = c :: l := by
  unfold lstrip
  rw [List.dropWhile_cons_of_neg (by simp [h])]

/-- `rstrip` does not touch a string ending with a non-space character. -/
theorem rstrip_snoc_nonspace (x : List Char) {c : Char} (h : isPySpace c = false) :
    rstrip (x ++ [c]) = x ++ [c] := by
  unfold rstrip
  rw [List.reverse_append]
  simp only [List.reverse_cons, List.reverse_nil, List.nil_append, List.singleton_append]
  rw [List.dropWhile_cons_of_neg (by simp [h])]
  rw [List.reverse_cons, List.reverse_reverse]

/-- `lstrip` consumes an all-space prefix. -/
theorem lstrip_space_prefix {a : List Char} (ha : ∀ c ∈ a, isPySpace c = true)
    (x : List Char) : lstrip (a ++ x) = lstrip x := by
  unfold lstrip
  exact List.dropWhile_append_of_pos ha

/-- `rstrip` consumes an all-space suffix. -/
theorem rstrip_space_suffix {b : List Char} (hb : ∀ c ∈ b, isPySpace c = true)
    (x : List Char) : rstrip (x ++ b) = rstrip x := by
  unfold rstrip
  rw [List.reverse_append]
  rw [List.dropWhile_append_of_pos (fun c hc => hb c (by simpa using hc))]

/-- `pyStrip` discards all-space affixes. -/
theorem pyStrip_append_affix {a b : List Char} (ha : ∀ c ∈ a, isPySpace c = true)
    (hb : ∀ c ∈ b, isPySpace c = true) (x : List Char) :
    pyStrip (a ++ x ++ b) = pyStrip x := by
  unfold pyStrip
  rw [List.append_assoc, lstrip_space_prefix ha]
  by_cases hx : lstrip x = []
  · have hxall : ∀ c ∈ x, isPySpace c = true := by
      have := List.dropWhile_eq_nil_iff.mp hx
      simpa [lstrip] using this
    have h1 : lstrip (x ++ b) = [] := by
      unfold lstrip
      rw [List.dropWhile_append_of_pos hxall]
      exact List.dropWhile_eq_nil_iff.mpr (by simpa using hb)
    rw [h1, hx]
  · have h2 : lstrip (x ++ b) = lstrip x ++ b := by
      unfold lstrip
      rw [List.dropWhile_append]
      simp only [List.isEmpty_iff]
      rw [if_neg (by simpa [lstrip] using hx)]
    rw [h2, rstrip_space_suffix hb]

/-- Every string splits as space-prefix ++ `pyStrip` ++ space-suffix. -/
theorem pyStrip_decomp (s : List Char) :
    ∃ a b, s = a ++ pyStrip s ++ b ∧ (∀ c ∈ a, isPySpace c = true) ∧
      (∀ c ∈ b, isPySpace c = true) := by
  refine ⟨s.takeWhile isPySpace, ((lstrip s).reverse.takeWhile isPySpace).reverse,
    ?_, ?_, ?_⟩
  · conv_lhs => rw [← List.takeWhile_append_dropWhile (p := isPySpace) (l := s)]
    rw [List.append_assoc]
    congr 1
    show lstrip s = pyStrip s ++ ((lstrip s).reverse.takeWhile isPySpace).reverse
    conv_lhs => rw [← List.reverse_reverse (lstrip s)]
    conv_lhs =>
      rw [← List.takeWhile_append_dropWhile (p := isPySpace) (l := (lstrip s).reverse)]
    rw [List.reverse_append]
    rfl
  · intro c hc
    exact List.mem_takeWhile_imp hc
  · intro c hc
    rw [List.mem_reverse] at hc
    exact List.mem_takeWhile_imp hc

/-- `pyStrip` is the identity on a fence-delimited string. -/
theorem pyStrip_fence (s : List Char) :
    pyStrip (fjson ++ (s ++ g3)) = fjson ++ (s ++ g3) := by
  have e1 : fjson ++ (s ++ g3) = '`' :: (['`', '`', 'j', 's', 'o', 'n'] ++ (s ++ g3)) := by
    rw [fjson_eq]
    rfl
  have e2 : fjson ++ (s ++ g3) = (fjson ++ (s ++ ['`', '`'])) ++ ['`'] := by
    rw [g3_eq]
    simp
  unfold pyStrip
  rw [e1, lstrip_cons_nonspace (by decide), ← e1, e2,
    rstrip_snoc_nonspace _ (by decide), ← e2]

/-- Main cleaning lemma: wrapping a reply in whitespace plus the code-fence
markers does not change the cleaned text (app.py line 84). -/
theorem clean_wrap (s ws1 ws2 : List Char)
    (h1 : ∀ c ∈ ws1, isPySpace c = true) (h2 : ∀ c ∈ ws2, isPySpace c = true) :
    clean (ws1 ++ fjson ++ s ++ g3 ++ ws2) = clean s := by
  have hassoc : ws1 ++ fjson ++ s ++ g3 ++ ws2
      = ws1 ++ (fjson ++ (s ++ g3)) ++ ws2 := by
    simp [List.append_assoc]
  unfold clean
  rw [hassoc, pyStrip_append_affix h1 h2, pyStrip_fence,
    removeAll_prefix_self (by rw [fjson_eq]; simp) (s ++ g3),
    removeAll_append_right (p := fjson) (by rw [fjson_eq]; simp)
      (by intro c hc; rw [g3_eq] at hc; fin_cases hc <;> decide) s,
    removeAll_g3_tail]
  obtain ⟨a, b, hs, ha, hb⟩ := pyStrip_decomp s
  have hnb : ∀ c ∈ a, c ≠ '`' := by
    intro c hc h
    have := ha c hc
    subst h
    exact absurd this (by decide)
  have hnb2 : ∀ c ∈ b, fjson.reverse.head? ≠ some c := by
    intro c hc h
    have hsp := hb c hc
    have hn : fjson.reverse.head? = some 'n' := by decide
    rw [hn] at h
    have hcn : c = 'n' := (Option.some.inj h).symm
    subst hcn
    exact absurd hsp (by decide)
  have hnb3 : ∀ c ∈ b, g3.reverse.head? ≠ some c := by
    intro c hc h
    have hsp := hb c hc
    have hn : g3.reverse.head? = some '`' := by decide
    rw [hn] at h
    have hcn : c = '`' := (Option.some.inj h).symm
    subst hcn
    exact absurd hsp (by decide)
  conv_lhs => rw [hs]
  rw [removeAll_append_right (p := fjson) (by rw [fjson_eq]; simp) hnb2 (a ++ pyStrip s),
    removeAll_append_left '`' ['`', '`', 'j', 's', 'o', 'n'] fjson_eq (pyStrip s) a hnb,
    removeAll_append_right (p := g3) (by rw [g3_eq]; simp) hnb3
      (a ++ removeAll fjson (pyStrip s)),
    removeAll_append_left '`' ['`', '`'] g3_eq (removeAll fjson (pyStrip s)) a hnb]
  exact pyStrip_append_affix ha hb _

/-- Unfolding `generate_story_chapter` on a reply that was returned (not raised). -/
theorem generate_story_chapter_ok_eq (raw : List Char) :
    generate_story_chapter (Except.ok raw)
      = match json_loads (clean raw) with
        | Except.ok data => Except.ok (some data)
        | Except.error _ => Except.ok none := rfl

/-! ### Claim theorems -/

/-- C1, counterexample.  The claim asserts that every turn either commits a full
new Chapter plus updated PendingChoices or commits nothing.  On the concrete
reply `replyNoChoices` — valid JSON with `narrative_chapter` and `image_prompt`
but without `next_choices` — the `story_cycle` handler generates the image,
appends the new chapter, and only then hits the `KeyError` on
`ai_response["next_choices"]`: the transcript has grown by one, the pending
choices are stale, and the exception escapes.  Neither disjunct of the claim
holds. -/
theorem C1_turn_atomicity_counterexample :
    (story_cycle_handler (genFixed replyNoChoices) true
        (imgFixed (ImgOutcome.success imgBodyOk)) stEx choiceEx).1.story_chapters.length
      = stEx.story_chapters.length + 1 ∧
    (story_cycle_handler (genFixed replyNoChoices) true
        (imgFixed (ImgOutcome.success imgBodyOk)) stEx choiceEx).1.latest_choices
      = stEx.latest_choices ∧
    (story_cycle_handler (genFixed replyNoChoices) true
        (imgFixed (ImgOutcome.success imgBodyOk)) stEx choiceEx).2
      = some (PyError.keyError kChoices) :=
  ⟨rfl, rfl, rfl⟩

/-- C1, amended.  If the narrative-generation call raises, or `json.loads` on
the cleaned reply fails, then both turn handlers return with the session state
(hence transcript length and pending choices) completely unchanged.  The
original claim's further promise that every turn is all-or-nothing fails for
replies that parse but lack an accessed key (see the counterexample). -/
theorem C1_turn_atomicity_amended (kc : Bool) (imgO : ImgOracle) (st : SessionState)
    (c : List Char) (raw : Except Unit (List Char))
    (h : raw = Except.error () ∨
      ∃ r, raw = Except.ok r ∧ json_loads (clean r) = Except.error ()) :
    (story_cycle_handler (fun _ _ _ => raw) kc imgO st c).1 = st ∧
    (story_start_handler (fun _ _ _ => raw) kc imgO st c).1 = st := by
  have hg : generate_story_chapter raw = Except.error PyError.unboundLocal ∨
      generate_story_chapter raw = Except.ok none := by
    rcases h with h | ⟨r, hr, hjson⟩
    · subst h
      left
      rfl
    · subst hr
      right
      rw [generate_story_chapter_ok_eq, hjson]
  constructor
  · unfold story_cycle_handler
    cases hpj : pyJoinTexts st.story_chapters with
    | error e => rfl
    | ok ctx => rcases hg with hg | hg <;> simp [hg]
  · unfold story_start_handler
    by_cases hc : c.isEmpty
    · rw [if_pos hc]
    · rw [if_neg hc]
      rcases hg with hg | hg <;> simp [hg]

/-- C1, witness for the amended theorem at a non-JSON reply. -/
theorem C1_turn_atomicity_witness :
    (story_cycle_handler (fun _ _ _ => Except.ok rawNotJson) false
        (imgFixed ImgOutcome.raisedOther) stEx choiceEx).1 = stEx ∧
    (story_start_handler (fun _ _ _ => Except.ok rawNotJson) false
        (imgFixed ImgOutcome.raisedOther) stEx choiceEx).1 = stEx :=
  C1_turn_atomicity_amended false (imgFixed ImgOutcome.raisedOther) stEx choiceEx
    (Except.ok rawNotJson) (Or.inr ⟨rawNotJson, rfl, rfl⟩)

/-- C2, counterexample.  The claim asserts that a reply which is valid JSON but
lacks one of the three required fields is rejected as a parse failure rather
than passed onward.  On `replyMissing` (valid JSON with only
`narrative_chapter`), `generate_story_chapter` succeeds and returns the parsed
object; the missing fields surface only later as `KeyError`s at the call sites. -/
theorem C2_parser_rejection_counterexample :
    generate_story_chapter (Except.ok replyMissing) = Except.ok (some objMissing) ∧
    getItem objMissing kChoices = Except.error (PyError.keyError kChoices) ∧
    getItem objMissing kImg = Except.error (PyError.keyError kImg) :=
  ⟨rfl, rfl, rfl⟩

/-- C2, amended.  Parsing fails — surfaced as an error message plus a `None`
return, with no exception escaping `generate_story_chapter` — exactly when the
cleaned reply is not valid JSON.  Field presence is not checked: any value
`json.loads` accepts is returned onward unchanged. -/
theorem C2_parser_rejection_amended (raw : List Char) :
    (json_loads (clean raw) = Except.error () →
      generate_story_chapter (Except.ok raw) = Except.ok none) ∧
    (∀ d, json_loads (clean raw) = Except.ok d →
      generate_story_chapter (Except.ok raw) = Except.ok (some d)) := by
  constructor
  · intro h
    rw [generate_story_chapter_ok_eq, h]
  · intro d h
    rw [generate_story_chapter_ok_eq, h]

/-- C2, witness for the amended theorem: a non-JSON reply yields `None`, and a
valid-JSON reply is passed through. -/
theorem C2_parser_rejection_witness :
    generate_story_chapter (Except.ok rawNotJson) = Except.ok none ∧
    generate_story_chapter (Except.ok replyFull) = Except.ok (some objFull) :=
  ⟨(C2_parser_rejection_amended rawNotJson).1 rfl,
   (C2_parser_rejection_amended replyFull).2 objFull rfl⟩

/-- C3.  The claim says a failing `model.generate_content` call is converted
into a surfaced error and a `None` return.  In the code, the `except` block
executes `st.code(response.text)`, but when `generate_content` raised, the
local `response` was never assigned, so an `UnboundLocalError` escapes
`generate_story_chapter` instead — the intended catch-and-return-None is a
slip. -/
theorem C3_generation_failure_escapes :
    generate_story_chapter (Except.error ()) = Except.error PyError.unboundLocal :=
  rfl

/-- C4, counterexample.  The claim asserts that whenever text generation and
parsing succeed but image generation fails with an HTTP error, the turn still
commits one chapter with a null image.  With a well-formed reply but a
Stability HTTP error whose response body is not JSON, the error handler's
`st.json(e.response.json())` raises, the exception escapes
`generate_image_stability`, and the turn aborts before any chapter is
appended: the state is unchanged and no chapter is committed. -/
theorem C4_degrade_not_fail_counterexample :
    story_cycle_handler (genFixed replyFull) true (imgFixed (ImgOutcome.httpError htmlBody))
        stEx choiceEx
      = (stEx, some PyError.jsonDecodeError) :=
  rfl

/-- C4, amended.  When text generation and parsing succeed (with all three
fields readable) and the image call returns `None` — missing credential, a
caught non-HTTP exception, an HTTP error whose body is valid JSON, or a
malformed success payload — the turn commits exactly one new chapter with
`image = none` and replaces the pending choices with the reply's
`next_choices`.  An HTTP error with a non-JSON body instead aborts the whole
turn (see the counterexample). -/
theorem C4_degrade_not_fail_amended (st : SessionState) (c ctx raw : List Char) (kc : Bool)
    (io : ImgOutcome) (data ip nc ncs : Json)
    (hjoin : pyJoinTexts st.story_chapters = Except.ok ctx)
    (hparse : json_loads (clean raw) = Except.ok data)
    (htr : truthy data = true)
    (hip : getItem data kImg = Except.ok ip)
    (hnc : getItem data kNarr = Except.ok nc)
    (hcs : getItem data kChoices = Except.ok ncs)
    (himg : generate_image_stability kc io = Except.ok none) :
    story_cycle_handler (genFixed raw) kc (imgFixed io) st c
      = ({ st with
            story_chapters := st.story_chapters ++ [Chapter.mk nc none]
            latest_choices := ncs }, none) := by
  have hg : generate_story_chapter (Except.ok raw) = Except.ok (some data) := by
    rw [generate_story_chapter_ok_eq, hparse]
  simp only [story_cycle_handler, genFixed, imgFixed, hjoin, hg, htr, hip, himg, hnc, hcs]
  rfl

/-- C4, witness for the amended theorem: no image credential configured, full
reply; the chapter is committed with a null image and the choices are
replaced. -/
theorem C4_degrade_not_fail_witness :
    story_cycle_handler (genFixed replyFull) false (imgFixed ImgOutcome.raisedOther)
        stEx choiceEx
      = ({ stEx with
            story_chapters := stEx.story_chapters ++ [Chapter.mk (Json.str txtDoor) none]
            latest_choices := choicesABC }, none) :=
  C4_degrade_not_fail_amended stEx choiceEx txtOnce replyFull false ImgOutcome.raisedOther
    objFull (Json.str promptDoor) (Json.str txtDoor) choicesABC
    rfl rfl rfl rfl rfl rfl rfl

/-- C5.  If a raw reply parses, then the same reply wrapped in leading/trailing
whitespace and the code-fence markers parses to the identical structured value:
the cleaning step strips the wrapping without disturbing the payload. -/
theorem C5_parser_tolerance (s ws1 ws2 : List Char) (t : Json)
    (h1 : ∀ c ∈ ws1, isPySpace c = true) (h2 : ∀ c ∈ ws2, isPySpace c = true)
    (hp : json_loads (clean s) = Except.ok t) :
    json_loads (clean (ws1 ++ fjson ++ s ++ g3 ++ ws2)) = Except.ok t := by
  rw [clean_wrap s ws1 ws2 h1 h2, hp]

/-- C5, witness: the full example reply wrapped in newline/space/tab and fences
still parses to `objFull`. -/
theorem C5_parser_tolerance_witness :
    json_loads (clean (wsA ++ fjson ++ replyFull ++ g3 ++ wsB)) = Except.ok objFull :=
  C5_parser_tolerance replyFull wsA wsB objFull (by decide) (by decide) rfl

/-- C6.  The restart button deletes every session key; the rerun then
reinitialises the session, giving stage `world_forge`, no world bible, an empty
transcript and empty pending choices — from any prior state. -/
theorem C6_restart_clears (s : SessionState) :
    (ensure_initialized (restart_handler s)).app_stage = Stage.world_forge ∧
    (ensure_initialized (restart_handler s)).world_bible = none ∧
    (ensure_initialized (restart_handler s)).story_chapters = [] ∧
    (ensure_initialized (restart_handler s)).latest_choices = Json.arr [] :=
  ⟨rfl, rfl, rfl, rfl⟩

/-- C7.  The `story_cycle` handler consults the generator only at the
space-joined transcript texts (with the session's world bible and the submitted
choice), and the `story_start` handler only at the opening sentence standing in
for both context and choice: two generators agreeing there produce identical
turns. -/
theorem C7_story_context (g1 g2 : RawGen) (kc : Bool) (io : ImgOracle)
    (st : SessionState) (c p ctx : List Char) :
    (pyJoinTexts st.story_chapters = Except.ok ctx →
      g1 ctx st.world_bible c = g2 ctx st.world_bible c →
      story_cycle_handler g1 kc io st c = story_cycle_handler g2 kc io st c) ∧
    (g1 p st.world_bible p = g2 p st.world_bible p →
      story_start_handler g1 kc io st p = story_start_handler g2 kc io st p) := by
  constructor
  · intro hjoin hagree
    simp only [story_cycle_handler, hjoin, hagree]
  · intro hagree
    simp only [story_start_handler, hagree]

/-- C7, witness: a generator defined only at the joined transcript `txtOnce`
agrees there with the constant generator, and both handlers behave
identically. -/
theorem C7_story_context_witness :
    story_cycle_handler g1w false (imgFixed ImgOutcome.raisedOther) stEx choiceEx
      = story_cycle_handler g2w false (imgFixed ImgOutcome.raisedOther) stEx choiceEx ∧
    story_start_handler g1w false (imgFixed ImgOutcome.raisedOther) stEx txtOnce
      = story_start_handler g2w false (imgFixed ImgOutcome.raisedOther) stEx txtOnce :=
  ⟨(C7_story_context g1w g2w false (imgFixed ImgOutcome.raisedOther) stEx choiceEx
      txtOnce txtOnce).1 rfl rfl,
   (C7_story_context g1w g2w false (imgFixed ImgOutcome.raisedOther) stEx choiceEx
      txtOnce txtOnce).2 rfl⟩

/-- C8, counterexample.  The claim asserts PendingChoices is empty only before
the first successful turn.  Running the trace `evsC8` — forge the world, then a
fully successful first turn whose reply carries `next_choices: []` — reaches
stage `story_cycle` with two committed chapters and empty pending choices: a
successful turn has happened, yet the choices are empty. -/
theorem C8_pending_choices_counterexample :
    (runEvents evsC8).app_stage = Stage.story_cycle ∧
    (runEvents evsC8).story_chapters.length = 2 ∧
    (runEvents evsC8).latest_choices = Json.arr [] :=
  ⟨rfl, rfl, rfl⟩

/-- C8, amended.  Failed turns (generation raised, parse failed, or a falsy
reply) leave the whole state — in particular the pending choices — unchanged;
a fully successful turn replaces the pending choices with exactly the reply's
`next_choices` value and appends exactly the new chapter.  Hence in StoryCycle
the pending choices are those of the most recent successful turn; but they can
be empty after a successful turn whose `next_choices` is the empty array, so
emptiness does not certify that no turn succeeded (see the counterexample). -/
theorem C8_pending_choices_amended (g : RawGen) (kc : Bool) (io : ImgOracle)
    (st : SessionState) (c ctx : List Char)
    (hjoin : pyJoinTexts st.story_chapters = Except.ok ctx) :
    ((generate_story_chapter (g ctx st.world_bible c) = Except.ok none ∨
        (∃ e, generate_story_chapter (g ctx st.world_bible c) = Except.error e)) →
      (story_cycle_handler g kc io st c).1 = st) ∧
    (∀ data ip img nc ncs,
      generate_story_chapter (g ctx st.world_bible c) = Except.ok (some data) →
      truthy data = true →
      getItem data kImg = Except.ok ip →
      generate_image_stability kc (io ip) = Except.ok img →
      getItem data kNarr = Except.ok nc →
      getItem data kChoices = Except.ok ncs →
      (story_cycle_handler g kc io st c).1.latest_choices = ncs ∧
      (story_cycle_handler g kc io st c).1.story_chapters
        = st.story_chapters ++ [Chapter.mk nc img]) := by
  constructor
  · intro hg
    unfold story_cycle_handler
    rw [hjoin]
    rcases hg with hg | ⟨e, hg⟩ <;> simp [hg]
  · intro data ip img nc ncs hg htr hip himg hnc hcs
    unfold story_cycle_handler
    rw [hjoin]
    simp only [hg, htr, hip, himg, hnc, hcs]
    constructor <;> rfl

/-- C8, witness for the amended theorem: a parse failure leaves `stEx`
unchanged, and a successful turn on `replyFull` replaces the choices and
appends the chapter. -/
theorem C8_pending_choices_witness :
    (story_cycle_handler (genFixed rawNotJson) false (imgFixed ImgOutcome.raisedOther)
        stEx choiceEx).1 = stEx ∧
    ((story_cycle_handler (genFixed replyFull) false (imgFixed ImgOutcome.raisedOther)
        stEx choiceEx).1.latest_choices = choicesABC ∧
      (story_cycle_handler (genFixed replyFull) false (imgFixed ImgOutcome.raisedOther)
        stEx choiceEx).1.story_chapters
        = stEx.story_chapters ++ [Chapter.mk (Json.str txtDoor) none]) :=
  ⟨(C8_pending_choices_amended (genFixed rawNotJson) false (imgFixed ImgOutcome.raisedOther)
      stEx choiceEx txtOnce rfl).1 (Or.inl rfl),
   (C8_pending_choices_amended (genFixed replyFull) false (imgFixed ImgOutcome.raisedOther)
      stEx choiceEx txtOnce rfl).2 objFull (Json.str promptDoor) none (Json.str txtDoor)
      choicesABC rfl rfl rfl rfl rfl rfl⟩

/-- C9.  With the Google key absent the startup block reports which credential
is missing and halts before any stage logic; with a truthy Google key the
script always proceeds, regardless of the Stability and ElevenLabs keys (at
most warning about the latter). -/
theorem C9_fatal_google_key (g stb el : Option (List Char)) :
    startup_check none stb el = StartupOutcome.halted googleMissingMsg ∧
    (pyTruthyKey g = true →
      startup_check g stb el = StartupOutcome.proceeded (!pyTruthyKey el)) := by
  constructor
  · rfl
  · intro h
    unfold startup_check
    rw [h]
    rfl

/-- C9, witness: missing Google key halts even with the other two keys present;
a present Google key proceeds even with both other keys missing. -/
theorem C9_fatal_google_key_witness :
    startup_check none (some keyStabilityEx) (some keyElevenEx)
      = StartupOutcome.halted googleMissingMsg ∧
    startup_check (some keyGoogleEx) none none = StartupOutcome.proceeded true :=
  ⟨(C9_fatal_google_key (some keyGoogleEx) (some keyStabilityEx) (some keyElevenEx)).1,
   (C9_fatal_google_key (some keyGoogleEx) none none).2 rfl⟩

/-- C10.  The `@st.cache_data` key for `generate_story_chapter` excludes the
underscore-prefixed `_story_context` and `_world_bible`, so after any call that
returned under choice `uc`, a second call with the same `uc` — but arbitrary
different context and world bible — returns the identical cached value and
leaves the cache unchanged, never invoking the generator again. -/
theorem C10_cache_ignores_context (g : RawGen) (cache cache1 : List (List Char × Option Json))
    (ctx1 ctx2 : List Char) (wb1 wb2 : Option (List Char)) (uc : List Char) (v : Option Json)
    (h : cached_generate_story_chapter g cache ctx1 wb1 uc = Except.ok (v, cache1)) :
    cached_generate_story_chapter g cache1 ctx2 wb2 uc = Except.ok (v, cache1) := by
  unfold cached_generate_story_chapter at h ⊢
  cases hl : pyLookup cache uc with
  | some w =>
    rw [hl] at h
    have hw : w = v ∧ cache = cache1 := by
      simpa [Prod.ext_iff] using h
    obtain ⟨hwv, hcc⟩ := hw
    rw [← hcc, hl, hwv]
  | none =>
    rw [hl] at h
    cases hg : generate_story_chapter (g ctx1 wb1 uc) with
    | error e =>
      rw [hg] at h
      exact absurd h (by simp)
    | ok w =>
      rw [hg] at h
      have hw : w = v ∧ (uc, w) :: cache = cache1 := by
        simpa [Prod.ext_iff] using h
      obtain ⟨hwv, hcc⟩ := hw
      rw [← hcc]
      simp [pyLookup, hwv]

/-- C10, witness: the first call under context `txtOnce` caches `objFull`; the
second call with a different context and a set world bible — for which the
generator would answer `replyMissing` — still returns the cached `objFull`. -/
theorem C10_cache_ignores_context_witness :
    cached_generate_story_chapter rawGenCtx [(choiceEx, some objFull)] otherCtx (some wbEx)
        choiceEx
      = Except.ok (some objFull, [(choiceEx, some objFull)]) :=
  C10_cache_ignores_context rawGenCtx [] [(choiceEx, some objFull)] txtOnce otherCtx
    none (some wbEx) choiceEx (some objFull) rfl
